import Mathlib

/-!
# Verification of the rpg-map fog-of-war application (src/app.js)

Shallow embedding of the single source file `src/app.js`: the mutable
`state` object, the event handlers that mutate it, and the
localStorage persistence (`saveState` / `loadState`).

Modelling conventions, chosen to follow the JavaScript source:

* Runtime values that the code stores into or loads from the persisted
  record are modelled by `JVal` (JSON values).  JavaScript numbers are
  modelled as exact rationals `ℚ`: every numeric value the application
  itself produces (ids, grid sizes, percentage coordinates) is a finite
  double, hence an exact rational; `NaN` only arises from `parseInt`,
  which is modelled as an `Option ℤ` result (`none` = `NaN`).
* JavaScript objects used as string-keyed maps (`state.revealed`, the
  marker records, the persisted payload) are association lists in
  insertion order with unique keys; property read is `jsGet`, property
  write is `jsSet` (update in place, append if absent), exactly the
  observable object semantics the code relies on.
* The DOM is not state: handlers receive the values the code reads from
  input elements (`dom.cols.value` parse result, marker name text, the
  clicked cell's `data-i`/`data-j`, the click position in percent) as
  arguments.  `parseInt(...)` results are passed as `Option ℤ`.
* `localStorage` plus `JSON.stringify`/`JSON.parse` is an opaque store:
  serialization produces the `JVal` payload object, deserialization
  consumes one.  `JSON.parse` of the saved blob is the identity on this
  fragment (no `undefined`, no `NaN`, exact rationals).
* String trimming and prefix tests are re-implemented on character
  lists (`jsTrim`, `jsStartsWith`) so that they compute in the kernel;
  they agree with `String.trim` / `String.startsWith` on the standard
  whitespace the claims involve.
-/

namespace RpgMap

/-- JSON-style JavaScript runtime values (numbers as exact rationals). -/
inductive JVal where
  | null
  | bool (b : Bool)
  | num (q : ℚ)
  | str (s : String)
  | arr (elems : List JVal)
  | obj (fields : List (String × JVal))

/-- JavaScript truthiness of a `JVal` (`NaN` never occurs in stored values). -/
def truthy : JVal → Bool
  | .null => false
  | .bool b => b
  | .num q => decide (q ≠ 0)
  | .str s => decide (s ≠ "")
  | .arr _ => true
  | .obj _ => true

/-- Truthiness of an optional value; `none` models `undefined` (falsy). -/
def truthyOpt : Option JVal → Bool
  | none => false
  | some v => truthy v

/-- Property read on an object given as an association list: first binding
wins (keys are unique in every object the application builds). -/
def jsGet : List (String × JVal) → String → Option JVal
  | [], _ => none
  | (k, v) :: rest, key => if k = key then some v else jsGet rest key

/-- Property write `o[key] = v`: update the existing binding in place,
append a new binding if the key is absent. -/
def jsSet : List (String × JVal) → String → JVal → List (String × JVal)
  | [], key, v => [(key, v)]
  | (k, w) :: rest, key, v =>
      if k = key then (key, v) :: rest else (k, w) :: jsSet rest key v

/-- Property read `v.key` on an arbitrary value: `undefined` (`none`) when
the value is not an object (reading a property of `null` throws, but the
only such read, in `loadState`, is inside `try`/`catch` and the catch
leaves the state unchanged — extensionally the same as every field guard
failing, which is what this definition yields). -/
def jsField (v : JVal) (key : String) : Option JVal :=
  match v with
  | .obj fs => jsGet fs key
  | _ => none

/-- JS `typeof v === 'number'`. -/
def isNumV : JVal → Bool
  | .num _ => true
  | _ => false

/-- JS `typeof v === 'object'` (true for objects, arrays and `null`). -/
def isObjTypeof : JVal → Bool
  | .obj _ => true
  | .arr _ => true
  | .null => true
  | _ => false

/-- The own enumerable string-keyed entries of a value, as used when an
object (or array — `typeof` also accepts it) is installed as
`state.revealed`: array indices become string keys. -/
def objEntries : JVal → List (String × JVal)
  | .obj fs => fs
  | .arr xs => xs.enum.map (fun p => (toString p.1, p.2))
  | _ => []

/-- JS `x || d` for the result of `parseInt` (an integer or `NaN = none`):
`NaN` and `0` are falsy and yield the default. -/
def jsOrInt (x : Option ℤ) (d : ℤ) : ℤ :=
  match x with
  | none => d
  | some v => if v = 0 then d else v

/-- JS `a || b` on strings: the empty string is falsy. -/
def jsOrStr (a b : String) : String :=
  if a = "" then b else a

/-- JS `String.prototype.trim`, computed on the character list (standard
whitespace). -/
def jsTrim (s : String) : String :=
  String.mk (((s.data.dropWhile Char.isWhitespace).reverse.dropWhile
    Char.isWhitespace).reverse)

/-- JS `String.prototype.startsWith`, computed on character lists. -/
def jsStartsWith (s pre : String) : Bool :=
  pre.data.isPrefixOf s.data

/-- Interaction mode (`state.mode`): `'reveal' | 'marker'`. -/
inductive Mode where
  | marker
  | reveal
deriving DecidableEq

/-- The mutable `state` object of app.js (lines 38–48). -/
structure AppState where
  imageDataUrl : JVal
  cols : ℚ
  rows : ℚ
  revealed : List (String × JVal)
  markers : List JVal
  nextMarkerId : ℚ
  mode : Mode
  pendingMarker : Option (ℚ × ℚ)
  masterViewAll : Bool

/-- The initial `state` literal (app.js lines 38–48). -/
def defaultState : AppState where
  imageDataUrl := .null
  cols := 8
  rows := 6
  revealed := []
  markers := []
  nextMarkerId := 1
  mode := .marker
  pendingMarker := none
  masterViewAll := false

/-- The cell key template string `` `${i},${j}` ``. -/
def cellKey (i j : ℤ) : String :=
  toString i ++ "," ++ toString j

/-- Source `applyGridInputs` (app.js 62–67): clamp the parsed grid inputs into
`[4, 24]`, with `parseInt(...) || 8` (resp. `|| 6`) supplying the default
when the parse yields `NaN` (`none`) or `0`. -/
def applyGridInputs (colsIn rowsIn : Option ℤ) (s : AppState) : AppState :=
  { s with
    cols := ((max 4 (min 24 (jsOrInt colsIn 8)) : ℤ) : ℚ)
    rows := ((max 4 (min 24 (jsOrInt rowsIn 6)) : ℤ) : ℚ) }

/-- Source `isCellVisible` (app.js 90–92): `state.revealed[key] || state.masterViewAll`. -/
def isCellVisible (s : AppState) (key : String) : Bool :=
  truthyOpt (jsGet s.revealed key) || s.masterViewAll

/-- Membership of a key in the revealed map, in the truthiness sense the
code uses everywhere (`state.revealed[key]`). -/
def memRevealed (revealed : List (String × JVal)) (key : String) : Bool :=
  truthyOpt (jsGet revealed key)

/-- The integers `lo, lo+1, …, hi-1` (empty when `hi ≤ lo`), the index
set of a `for (let t = lo; t <= hi - 1; t++)` loop. -/
def intRange (lo hi : ℤ) : List ℤ :=
  (List.range (hi - lo).toNat).map (fun (t : ℕ) => lo + (t : ℤ))

/-- The keys revealed by the nested loops of the reveal branch of
`onMapClick` (app.js 215–225), in loop order: `jj` outer from
`cj - radius` to `cj + radius`, `ii` inner likewise, skipping
out-of-grid cells (`continue`). -/
def revealList (ci cj radius : ℤ) (cols rows : ℚ) : List String :=
  (intRange (cj - radius) (cj + radius + 1)).flatMap (fun (jj : ℤ) =>
    (intRange (ci - radius) (ci + radius + 1)).filterMap (fun (ii : ℤ) =>
      if ii < 0 ∨ (ii : ℚ) ≥ cols ∨ jj < 0 ∨ (jj : ℚ) ≥ rows then none
      else some (cellKey ii jj)))

/-- The marker object pushed by `onMarkerSave` (app.js 324–330). -/
def mkMarker (id x y : ℚ) (name check : String) : JVal :=
  .obj [("id", .num id), ("x", .num x), ("y", .num y),
        ("name", .str name), ("check", .str check)]

/-- Source `onMapClick` (app.js 202–236).  `i`, `j` are the clicked cell's
`data-i`/`data-j`; `radiusIn` is `parseInt(dom.revealSize?.value || '0', 10)`
(`none` = `NaN`, in which case both loops run zero times); `x`, `y` is the
click position in percent used by the marker branch.  In reveal mode each
in-grid key of the square neighbourhood is set to `true`; in marker mode
`openMarkerModal` stores the pending position. -/
def onMapClick (i j : ℤ) (radiusIn : Option ℤ) (x y : ℚ) (s : AppState) :
    AppState :=
  match s.mode with
  | .reveal =>
      let ks := match radiusIn with
        | some r => revealList i j r s.cols s.rows
        | none => []
      { s with revealed := ks.foldl (fun acc k => jsSet acc k (.bool true)) s.revealed }
  | .marker => { s with pendingMarker := some (x, y) }

/-- Source `onMarkerSave` (app.js 320–335): rejected without a pending position;
otherwise pushes a marker with `id = nextMarkerId++`, the trimmed name
defaulted to `'Проверка'` when empty, the trimmed check defaulted to `''`,
and closes the modal (clearing the pending position). -/
def onMarkerSave (nameIn checkIn : String) (s : AppState) : AppState :=
  match s.pendingMarker with
  | none => s
  | some (x, y) =>
      { s with
        markers := s.markers ++
          [mkMarker s.nextMarkerId x y (jsOrStr (jsTrim nameIn) "Проверка")
            (jsOrStr (jsTrim checkIn) "")]
        nextMarkerId := s.nextMarkerId + 1
        pendingMarker := none }

/-- Source `deleteMarker` (app.js 337–342): keep markers whose `id` is not
strictly equal (`!==`) to the requested number. -/
def deleteMarker (id : ℚ) (s : AppState) : AppState :=
  { s with
    markers := s.markers.filter (fun m =>
      match jsField m "id" with
      | some (.num q) => decide (q ≠ id)
      | _ => true) }

/-- Source `onImageSelect` (app.js 112–125): a non-image file type is rejected
(no-op); otherwise, once the reader completes, the image reference is
replaced and the revealed set is cleared. -/
def onImageSelect (fileType dataUrl : String) (s : AppState) : AppState :=
  if jsStartsWith fileType "image/" then
    { s with imageDataUrl := .str dataUrl, revealed := [] }
  else s

/-- Source `setMode` (app.js 85–88); the mode button toggles between the two
modes (app.js 73). -/
def modeToggle (s : AppState) : AppState :=
  { s with mode := if s.mode = .reveal then .marker else .reveal }

/-- Source `onMasterShowAll` (app.js 94–100). -/
def onMasterShowAll (s : AppState) : AppState :=
  { s with masterViewAll := true }

/-- Source `onMasterHide` (app.js 102–108). -/
def onMasterHide (s : AppState) : AppState :=
  { s with masterViewAll := false }

/-- Source `onReset` (app.js 387–397), with the confirmation accepted. -/
def onReset (s : AppState) : AppState :=
  { s with imageDataUrl := .null, revealed := [], markers := [],
           nextMarkerId := 1 }

/-- Source `closeMarkerModal` / modal dismissal (app.js 315–318, 79): clears the
pending position. -/
def closeMarkerModal (s : AppState) : AppState :=
  { s with pendingMarker := none }

/-- Source `saveState` (app.js 401–415): the persisted payload object, with
exactly the six durable fields in source order. -/
def saveState (s : AppState) : JVal :=
  .obj [("imageDataUrl", s.imageDataUrl),
        ("cols", .num s.cols),
        ("rows", .num s.rows),
        ("revealed", .obj s.revealed),
        ("markers", .arr s.markers),
        ("nextMarkerId", .num s.nextMarkerId)]

/-- The keys of a payload object. -/
def objKeys : JVal → List String
  | .obj fs => fs.map Prod.fst
  | _ => []

/-- JS `if (payload.imageDataUrl) state.imageDataUrl = payload.imageDataUrl`
(app.js 422). -/
def loadImage (payload : JVal) (s : AppState) : AppState :=
  match jsField payload "imageDataUrl" with
  | some v => if truthy v then { s with imageDataUrl := v } else s
  | none => s

/-- JS `if (typeof payload.cols === 'number') state.cols = payload.cols`
(app.js 423). -/
def loadCols (payload : JVal) (s : AppState) : AppState :=
  match jsField payload "cols" with
  | some (.num q) => { s with cols := q }
  | _ => s

/-- JS `if (typeof payload.rows === 'number') state.rows = payload.rows`
(app.js 424). -/
def loadRows (payload : JVal) (s : AppState) : AppState :=
  match jsField payload "rows" with
  | some (.num q) => { s with rows := q }
  | _ => s

/-- JS `if (payload.revealed && typeof payload.revealed === 'object')
state.revealed = payload.revealed` (app.js 425). -/
def loadRevealed (payload : JVal) (s : AppState) : AppState :=
  match jsField payload "revealed" with
  | some v => if truthy v && isObjTypeof v then { s with revealed := objEntries v } else s
  | none => s

/-- JS `if (Array.isArray(payload.markers)) state.markers = payload.markers`
(app.js 426). -/
def loadMarkers (payload : JVal) (s : AppState) : AppState :=
  match jsField payload "markers" with
  | some (.arr xs) => { s with markers := xs }
  | _ => s

/-- JS `if (typeof payload.nextMarkerId === 'number') state.nextMarkerId =
payload.nextMarkerId` (app.js 427). -/
def loadNextId (payload : JVal) (s : AppState) : AppState :=
  match jsField payload "nextMarkerId" with
  | some (.num q) => { s with nextMarkerId := q }
  | _ => s

/-- Source `loadState` (app.js 417–433) applied to a parsed payload: the six
guarded field assignments in source order; a failing guard keeps the
current (default) value.  The function is total: the `try`/`catch` of
the source means no malformed payload ever escapes as an exception. -/
def loadState (payload : JVal) (s : AppState) : AppState :=
  loadNextId payload (loadMarkers payload (loadRevealed payload
    (loadRows payload (loadCols payload (loadImage payload s)))))

/-- Independent single-field decode of `imageDataUrl`: the guarded
assignment of app.js 422 in isolation — accept the field when truthy,
otherwise keep the given default.  Reads no other field of the record. -/
def decodeImage (payload : JVal) (dflt : JVal) : JVal :=
  match jsField payload "imageDataUrl" with
  | some v => if truthy v then v else dflt
  | none => dflt

/-- Independent single-field decode of `cols` (app.js 423): accept a
number, otherwise keep the default. -/
def decodeCols (payload : JVal) (dflt : ℚ) : ℚ :=
  match jsField payload "cols" with
  | some (.num q) => q
  | _ => dflt

/-- Independent single-field decode of `rows` (app.js 424). -/
def decodeRows (payload : JVal) (dflt : ℚ) : ℚ :=
  match jsField payload "rows" with
  | some (.num q) => q
  | _ => dflt

/-- Independent single-field decode of `revealed` (app.js 425): accept a
truthy value of object `typeof`, otherwise keep the default. -/
def decodeRevealed (payload : JVal) (dflt : List (String × JVal)) :
    List (String × JVal) :=
  match jsField payload "revealed" with
  | some v => if truthy v && isObjTypeof v then objEntries v else dflt
  | none => dflt

/-- Independent single-field decode of `markers` (app.js 426): accept an
array, otherwise keep the default. -/
def decodeMarkers (payload : JVal) (dflt : List JVal) : List JVal :=
  match jsField payload "markers" with
  | some (.arr xs) => xs
  | _ => dflt

/-- Independent single-field decode of `nextMarkerId` (app.js 427). -/
def decodeNextId (payload : JVal) (dflt : ℚ) : ℚ :=
  match jsField payload "nextMarkerId" with
  | some (.num q) => q
  | _ => dflt

/-- The startup sequence `init()` (app.js 52–54) as far as state is
concerned: `loadState()` then `applyGridInputs()`.  `loadState` writes
`state.cols`/`state.rows` back into the inputs, and `applyGridInputs`
re-parses those inputs; the parse results are passed in as `colsIn`/
`rowsIn` (universally quantified in the theorems, which therefore cover
every outcome of the string round trip through the DOM). -/
def initLoad (payload : Option JVal) (colsIn rowsIn : Option ℤ) : AppState :=
  applyGridInputs colsIn rowsIn
    (match payload with
     | some p => loadState p defaultState
     | none => defaultState)

/-- The user-interface events that mutate `state` during a session
(`bindEvents`, app.js 69–83), each carrying the values the handler reads
from the DOM. -/
inductive Op where
  | imageSelect (fileType dataUrl : String)
  | gridChange (colsIn rowsIn : Option ℤ)
  | modeToggle
  | masterShowAll
  | masterHide
  | resetConfirm
  | mapClick (i j : ℤ) (radiusIn : Option ℤ) (x y : ℚ)
  | markerSave (nameIn checkIn : String)
  | modalClose
  | markerDelete (id : ℚ)
  | diceRoll
deriving DecidableEq

/-- One event-handler step (`onDiceRoll` never touches `state`). -/
def step : Op → AppState → AppState
  | .imageSelect ty url => onImageSelect ty url
  | .gridChange cIn rIn => applyGridInputs cIn rIn
  | .modeToggle => modeToggle
  | .masterShowAll => onMasterShowAll
  | .masterHide => onMasterHide
  | .resetConfirm => onReset
  | .mapClick i j rIn x y => onMapClick i j rIn x y
  | .markerSave nIn cIn => onMarkerSave nIn cIn
  | .modalClose => closeMarkerModal
  | .markerDelete id => deleteMarker id
  | .diceRoll => fun s => s

/-- Run a sequence of events. -/
def runOps : List Op → AppState → AppState
  | [], s => s
  | op :: rest, s => runOps rest (step op s)

/-- The event is not the full session reset. -/
def notReset : Op → Prop
  | .resetConfirm => False
  | _ => True

instance (op : Op) : Decidable (notReset op) := by
  cases op <;> simp [notReset] <;> infer_instance

/-- The event is neither the full reset nor an image load. -/
def notResetNotImage : Op → Prop
  | .resetConfirm => False
  | .imageSelect _ _ => False
  | _ => True

instance (op : Op) : Decidable (notResetNotImage op) := by
  cases op <;> simp [notResetNotImage] <;> infer_instance

/-- The marker id issued by one event: an effective save (with a pending
position) assigns the current `nextMarkerId`; every other event assigns
nothing. -/
def issuedNow (op : Op) (s : AppState) : List ℚ :=
  match op, s.pendingMarker with
  | .markerSave _ _, some _ => [s.nextMarkerId]
  | _, _ => []

/-- The marker ids issued (assigned by effective saves) while running a
sequence of events. -/
def issuedIds : List Op → AppState → List ℚ
  | [], _ => []
  | op :: rest, s => issuedNow op s ++ issuedIds rest (step op s)

/-! ## Helper lemmas -/

theorem jsGet_jsSet (l : List (String × JVal)) (k key : String) (v : JVal) :
    jsGet (jsSet l k v) key = if key = k then some v else jsGet l key := by
  induction l with
  | nil =>
      by_cases h : key = k
      · subst h
        simp [jsSet, jsGet]
      · simp [jsSet, jsGet, h, Ne.symm h]
  | cons hd tl ih =>
      obtain ⟨a, w⟩ := hd
      by_cases h1 : a = k
      · subst h1
        by_cases h2 : key = a
        · subst h2
          simp [jsSet, jsGet]
        · simp [jsSet, jsGet, h2, Ne.symm h2]
      · by_cases h2 : key = a
        · subst h2
          simp [jsSet, jsGet, h1, Ne.symm h1]
        · simp [jsSet, jsGet, h1, h2, Ne.symm h2, ih]

theorem jsGet_foldl_setTrue (ks : List String) (l : List (String × JVal))
    (key : String) :
    jsGet (ks.foldl (fun acc k => jsSet acc k (.bool true)) l) key
      = if key ∈ ks then some (.bool true) else jsGet l key := by
  induction ks generalizing l with
  | nil => simp
  | cons a as ih =>
      simp only [List.foldl_cons, ih, jsGet_jsSet, List.mem_cons]
      by_cases h1 : key ∈ as <;> by_cases h2 : key = a <;> simp [h1, h2]

theorem jsSet_same (l : List (String × JVal)) (k : String) (v : JVal)
    (h : jsGet l k = some v) : jsSet l k v = l := by
  induction l with
  | nil => simp [jsGet] at h
  | cons hd tl ih =>
      obtain ⟨a, w⟩ := hd
      by_cases h1 : a = k
      · subst h1
        simp [jsGet] at h
        simp [jsSet, h]
      · simp [jsGet, h1] at h
        simp [jsSet, h1, ih h]

theorem foldl_setTrue_fixed (ks : List String) (l : List (String × JVal))
    (h : ∀ k ∈ ks, jsGet l k = some (.bool true)) :
    ks.foldl (fun acc k => jsSet acc k (.bool true)) l = l := by
  induction ks with
  | nil => rfl
  | cons a as ih =>
      simp only [List.foldl_cons, jsSet_same l a _ (h a (by simp))]
      exact ih (fun k hk => h k (by simp [hk]))

theorem mem_intRange {lo hi a : ℤ} : a ∈ intRange lo hi ↔ lo ≤ a ∧ a < hi := by
  unfold intRange
  simp only [List.mem_map, List.mem_range]
  constructor
  · rintro ⟨t, ht, rfl⟩
    omega
  · intro h
    exact ⟨(a - lo).toNat, by omega, by omega⟩

theorem mem_revealList {ci cj r : ℤ} {cols rows : ℚ} {key : String} :
    key ∈ revealList ci cj r cols rows ↔
      ∃ i j : ℤ, ci - r ≤ i ∧ i ≤ ci + r ∧ cj - r ≤ j ∧ j ≤ cj + r ∧
        0 ≤ i ∧ (i : ℚ) < cols ∧ 0 ≤ j ∧ (j : ℚ) < rows ∧
        key = cellKey i j := by
  unfold revealList
  simp only [List.mem_flatMap, List.mem_filterMap, mem_intRange]
  constructor
  · rintro ⟨jj, ⟨hj1, hj2⟩, ii, ⟨⟨hi1, hi2⟩, hif⟩⟩
    by_cases hc : ii < 0 ∨ (ii : ℚ) ≥ cols ∨ jj < 0 ∨ (jj : ℚ) ≥ rows
    · simp [hc] at hif
    · push_neg at hc
      simp [hc] at hif
      exact ⟨ii, jj, by omega, by omega, by omega, by omega,
        hc.1, hc.2.1, hc.2.2.1, hc.2.2.2, hif.symm⟩
  · rintro ⟨i, j, h1, h2, h3, h4, h5, h6, h7, h8, rfl⟩
    refine ⟨j, ⟨by omega, by omega⟩, i, ⟨⟨by omega, by omega⟩, ?_⟩⟩
    have hc : ¬(i < 0 ∨ (i : ℚ) ≥ cols ∨ j < 0 ∨ (j : ℚ) ≥ rows) := by
      push_neg
      exact ⟨by omega, h6, by omega, h8⟩
    simp [hc]

theorem intRange_singleton (lo : ℤ) : intRange lo (lo + 1) = [lo] := by
  unfold intRange
  simp [show lo + 1 - lo = 1 by ring, List.range_succ]

/-! ## Claim theorems -/

/-- C1: a click on cell `(ci, cj)` in reveal mode with radius `r ≥ 0` adds
to the revealed set exactly the keys of the cells `(i, j)` with
`ci-r ≤ i ≤ ci+r`, `cj-r ≤ j ≤ cj+r` intersected with `0 ≤ i < cols`,
`0 ≤ j < rows` (square Chebyshev neighbourhood clipped at the grid
boundary) and removes no key; on the default 8×6 grid, revealing `(3,2)`
with radius 1 from an empty revealed set yields exactly the nine cells
`(2,1) … (4,3)`. -/
theorem revealRadius_chebyshev_box (s : AppState) (ci cj r : ℤ) (x y : ℚ)
    (hmode : s.mode = .reveal) (hr : 0 ≤ r) :
    (∀ key : String,
      memRevealed (step (.mapClick ci cj (some r) x y) s).revealed key = true ↔
        (memRevealed s.revealed key = true ∨
          ∃ i j : ℤ, ci - r ≤ i ∧ i ≤ ci + r ∧ cj - r ≤ j ∧ j ≤ cj + r ∧
            0 ≤ i ∧ (i : ℚ) < s.cols ∧ 0 ≤ j ∧ (j : ℚ) < s.rows ∧
            key = cellKey i j)) ∧
    (step (.mapClick 3 2 (some 1) 0 0)
        { defaultState with mode := .reveal }).revealed
      = [("2,1", .bool true), ("3,1", .bool true), ("4,1", .bool true),
         ("2,2", .bool true), ("3,2", .bool true), ("4,2", .bool true),
         ("2,3", .bool true), ("3,3", .bool true), ("4,3", .bool true)] := by
  constructor
  · intro key
    simp only [step, onMapClick, hmode]
    simp only [memRevealed, jsGet_foldl_setTrue]
    by_cases hk : key ∈ revealList ci cj r s.cols s.rows
    · simp only [hk, if_pos, truthyOpt, truthy]
      simp only [true_iff]
      exact Or.inr (mem_revealList.mp hk)
    · simp only [hk, if_neg, ite_false]
      constructor
      · exact Or.inl
      · rintro (h | he)
        · exact h
        · exact absurd (mem_revealList.mpr he) hk
  · rfl

theorem revealRadius_chebyshev_box_witness :
    (step (.mapClick 3 2 (some 1) 0 0)
        { defaultState with mode := .reveal }).revealed
      = [("2,1", .bool true), ("3,1", .bool true), ("4,1", .bool true),
         ("2,2", .bool true), ("3,2", .bool true), ("4,2", .bool true),
         ("2,3", .bool true), ("3,3", .bool true), ("4,3", .bool true)] ∧
    memRevealed (step (.mapClick 3 2 (some 1) 0 0)
        { defaultState with mode := .reveal }).revealed "2,1" = true := by
  have h := revealRadius_chebyshev_box { defaultState with mode := .reveal }
    3 2 1 0 0 rfl (by norm_num)
  refine ⟨h.2, (h.1 "2,1").mpr (Or.inr ⟨2, 1, ?_, ?_, ?_, ?_, ?_, ?_, ?_, ?_, rfl⟩)⟩
  · norm_num
  · norm_num
  · norm_num
  · norm_num
  · norm_num
  · exact show (2 : ℚ) < 8 by norm_num
  · norm_num
  · exact show (1 : ℚ) < 6 by norm_num

/-- C7: in reveal mode, applying the reveal operation twice with the same
arguments yields exactly the state of applying it once (re-revealing is a
no-op), and with radius 0 on an in-grid cell the revealed key list is
exactly the one clicked cell. -/
theorem revealRadius_idempotent (s : AppState) (ci cj : ℤ) (rIn : Option ℤ)
    (x y : ℚ) (hmode : s.mode = .reveal) :
    step (.mapClick ci cj rIn x y) (step (.mapClick ci cj rIn x y) s)
      = step (.mapClick ci cj rIn x y) s ∧
    (0 ≤ ci → (ci : ℚ) < s.cols → 0 ≤ cj → (cj : ℚ) < s.rows →
      revealList ci cj 0 s.cols s.rows = [cellKey ci cj]) := by
  constructor
  · simp only [step, onMapClick, hmode]
    congr 1
    apply foldl_setTrue_fixed
    intro k hk
    rw [jsGet_foldl_setTrue]
    simp [hk]
  · intro h1 h2 h3 h4
    unfold revealList
    rw [show cj - 0 = cj by ring, show cj + 0 + 1 = cj + 1 by ring,
        show ci - 0 = ci by ring, show ci + 0 + 1 = ci + 1 by ring,
        intRange_singleton, intRange_singleton]
    have hc : ¬(ci < 0 ∨ (ci : ℚ) ≥ s.cols ∨ cj < 0 ∨ (cj : ℚ) ≥ s.rows) := by
      push_neg
      exact ⟨h1, h2, h3, h4⟩
    simp [hc]

theorem revealRadius_idempotent_witness :
    step (.mapClick 1 1 (some 2) 0 0)
        (step (.mapClick 1 1 (some 2) 0 0) { defaultState with mode := .reveal })
      = step (.mapClick 1 1 (some 2) 0 0) { defaultState with mode := .reveal } ∧
    revealList 1 1 0 8 6 = [cellKey 1 1] := by
  have h := revealRadius_idempotent { defaultState with mode := .reveal }
    1 1 (some 2) 0 0 rfl
  exact ⟨h.1, h.2 (by norm_num) (show (1 : ℚ) < 8 by norm_num) (by norm_num)
    (show (1 : ℚ) < 6 by norm_num)⟩

/-- C8: saving a marker with no pending position context is a pure no-op:
the state (markers, nextMarkerId, everything) is returned unchanged, and
no error is raised (the handler is total). -/
theorem markerSave_rejected_without_pending (s : AppState)
    (nameIn checkIn : String) (h : s.pendingMarker = none) :
    step (.markerSave nameIn checkIn) s = s := by
  simp [step, onMarkerSave, h]

theorem markerSave_rejected_without_pending_witness :
    step (.markerSave "Trap" "DC 15 Dex") defaultState = defaultState :=
  markerSave_rejected_without_pending defaultState "Trap" "DC 15 Dex" rfl

/-- C10: loading a new image (of image type) clears the revealed set to
empty and replaces the image reference, leaving the marker sequence,
`nextMarkerId`, `cols` and `rows` exactly as they were. -/
theorem imageSelect_frame (s : AppState) (fileType dataUrl : String)
    (h : jsStartsWith fileType "image/" = true) :
    (step (.imageSelect fileType dataUrl) s).revealed = [] ∧
    (step (.imageSelect fileType dataUrl) s).imageDataUrl = .str dataUrl ∧
    (step (.imageSelect fileType dataUrl) s).markers = s.markers ∧
    (step (.imageSelect fileType dataUrl) s).nextMarkerId = s.nextMarkerId ∧
    (step (.imageSelect fileType dataUrl) s).cols = s.cols ∧
    (step (.imageSelect fileType dataUrl) s).rows = s.rows := by
  simp [step, onImageSelect, h]

theorem imageSelect_frame_witness :
    (step (.imageSelect "image/png" "data:image/png;base64,AA==")
        { defaultState with revealed := [("0,0", JVal.bool true)],
                            markers := [mkMarker 1 10 20 "Trap" "DC 15"],
                            nextMarkerId := 2 }).revealed = [] ∧
    (step (.imageSelect "image/png" "data:image/png;base64,AA==")
        { defaultState with revealed := [("0,0", JVal.bool true)],
                            markers := [mkMarker 1 10 20 "Trap" "DC 15"],
                            nextMarkerId := 2 }).markers
      = [mkMarker 1 10 20 "Trap" "DC 15"] := by
  have h := imageSelect_frame
    { defaultState with revealed := [("0,0", JVal.bool true)],
                        markers := [mkMarker 1 10 20 "Trap" "DC 15"],
                        nextMarkerId := 2 }
    "image/png" "data:image/png;base64,AA==" rfl
  exact ⟨h.1, h.2.2.1⟩

/-- A session state the application itself can be in: the image reference
is `null` or a non-empty (data-URL) string, the two shapes `imageDataUrl`
ever takes in the source (initial `null`, or `FileReader.readAsDataURL`
output). -/
def validImageRef (s : AppState) : Prop :=
  s.imageDataUrl = .null ∨ ∃ u, u ≠ "" ∧ s.imageDataUrl = .str u

/-- Agreement of two states on the three transient (non-persisted)
fields. -/
def transEq (a b : AppState) : Prop :=
  a.mode = b.mode ∧ a.pendingMarker = b.pendingMarker ∧
  a.masterViewAll = b.masterViewAll

theorem transEq_trans {a b c : AppState} (h1 : transEq a b)
    (h2 : transEq b c) : transEq a c :=
  ⟨h1.1.trans h2.1, h1.2.1.trans h2.2.1, h1.2.2.trans h2.2.2⟩

theorem loadImage_transEq (p : JVal) (s : AppState) :
    transEq (loadImage p s) s := by
  unfold transEq loadImage
  repeat' split
  all_goals exact ⟨rfl, rfl, rfl⟩

theorem loadCols_transEq (p : JVal) (s : AppState) :
    transEq (loadCols p s) s := by
  unfold transEq loadCols
  repeat' split
  all_goals exact ⟨rfl, rfl, rfl⟩

theorem loadRows_transEq (p : JVal) (s : AppState) :
    transEq (loadRows p s) s := by
  unfold transEq loadRows
  repeat' split
  all_goals exact ⟨rfl, rfl, rfl⟩

theorem loadRevealed_transEq (p : JVal) (s : AppState) :
    transEq (loadRevealed p s) s := by
  unfold transEq loadRevealed
  repeat' split
  all_goals exact ⟨rfl, rfl, rfl⟩

theorem loadMarkers_transEq (p : JVal) (s : AppState) :
    transEq (loadMarkers p s) s := by
  unfold transEq loadMarkers
  repeat' split
  all_goals exact ⟨rfl, rfl, rfl⟩

theorem loadNextId_transEq (p : JVal) (s : AppState) :
    transEq (loadNextId p s) s := by
  unfold transEq loadNextId
  repeat' split
  all_goals exact ⟨rfl, rfl, rfl⟩

theorem loadState_transEq (p : JVal) (s : AppState) :
    transEq (loadState p s) s :=
  transEq_trans (loadNextId_transEq p _)
    (transEq_trans (loadMarkers_transEq p _)
      (transEq_trans (loadRevealed_transEq p _)
        (transEq_trans (loadRows_transEq p _)
          (transEq_trans (loadCols_transEq p _) (loadImage_transEq p s)))))

/-- C2: `loadState (saveState s)` applied to the default state reproduces
every persisted field of a valid session state exactly; the serialized
record carries exactly the six durable keys, and `loadState` never touches
the transient fields `mode`, `pendingMarker`, `masterViewAll`. -/
theorem persistence_roundtrip (s : AppState) (hval : validImageRef s) :
    ((loadState (saveState s) defaultState).imageDataUrl = s.imageDataUrl ∧
     (loadState (saveState s) defaultState).cols = s.cols ∧
     (loadState (saveState s) defaultState).rows = s.rows ∧
     (loadState (saveState s) defaultState).revealed = s.revealed ∧
     (loadState (saveState s) defaultState).markers = s.markers ∧
     (loadState (saveState s) defaultState).nextMarkerId = s.nextMarkerId) ∧
    objKeys (saveState s)
      = ["imageDataUrl", "cols", "rows", "revealed", "markers",
         "nextMarkerId"] ∧
    (∀ (p : JVal) (t : AppState),
      (loadState p t).mode = t.mode ∧
      (loadState p t).pendingMarker = t.pendingMarker ∧
      (loadState p t).masterViewAll = t.masterViewAll) := by
  refine ⟨?_, rfl, ?_⟩
  · rcases hval with h | ⟨u, hu, h⟩
    · simp [loadState, loadImage, loadCols, loadRows, loadRevealed,
        loadMarkers, loadNextId, saveState, jsField, jsGet, h, truthy,
        objEntries, isObjTypeof, defaultState]
    · simp [loadState, loadImage, loadCols, loadRows, loadRevealed,
        loadMarkers, loadNextId, saveState, jsField, jsGet, h, truthy, hu,
        objEntries, isObjTypeof]
  · intro p t
    exact loadState_transEq p t

/-- A concrete valid session used to witness the round-trip law. -/
def roundtripSample : AppState where
  imageDataUrl := .str "data:image/png;base64,AA=="
  cols := 10
  rows := 12
  revealed := [("1,2", .bool true), ("2,2", .bool true)]
  markers := [mkMarker 1 25 75 "Trap" "DC 15 Dex"]
  nextMarkerId := 2
  mode := .reveal
  pendingMarker := some (1, 2)
  masterViewAll := true

theorem persistence_roundtrip_witness :
    (loadState (saveState roundtripSample) defaultState).imageDataUrl
      = JVal.str "data:image/png;base64,AA==" ∧
    (loadState (saveState roundtripSample) defaultState).cols = 10 ∧
    (loadState (saveState roundtripSample) defaultState).markers
      = [mkMarker 1 25 75 "Trap" "DC 15 Dex"] ∧
    (loadState (saveState roundtripSample) defaultState).mode
      = defaultState.mode := by
  have h := persistence_roundtrip roundtripSample
    (Or.inr ⟨"data:image/png;base64,AA==", by decide, rfl⟩)
  exact ⟨h.1.1, h.1.2.1, h.1.2.2.2.2.1, (h.2.2 (saveState roundtripSample)
    defaultState).1⟩

theorem loadImage_fields (p : JVal) (s : AppState) :
    (loadImage p s).imageDataUrl = decodeImage p s.imageDataUrl ∧
    (loadImage p s).cols = s.cols ∧
    (loadImage p s).rows = s.rows ∧
    (loadImage p s).revealed = s.revealed ∧
    (loadImage p s).markers = s.markers ∧
    (loadImage p s).nextMarkerId = s.nextMarkerId := by
  unfold loadImage decodeImage
  cases hj : jsField p "imageDataUrl" with
  | none => exact ⟨rfl, rfl, rfl, rfl, rfl, rfl⟩
  | some v =>
      by_cases ht : truthy v = true
      · simp [ht]
      · simp [ht]

theorem loadCols_fields (p : JVal) (s : AppState) :
    (loadCols p s).imageDataUrl = s.imageDataUrl ∧
    (loadCols p s).cols = decodeCols p s.cols ∧
    (loadCols p s).rows = s.rows ∧
    (loadCols p s).revealed = s.revealed ∧
    (loadCols p s).markers = s.markers ∧
    (loadCols p s).nextMarkerId = s.nextMarkerId := by
  unfold loadCols decodeCols
  cases hj : jsField p "cols" with
  | none => exact ⟨rfl, rfl, rfl, rfl, rfl, rfl⟩
  | some v => cases v <;> exact ⟨rfl, rfl, rfl, rfl, rfl, rfl⟩

theorem loadRows_fields (p : JVal) (s : AppState) :
    (loadRows p s).imageDataUrl = s.imageDataUrl ∧
    (loadRows p s).cols = s.cols ∧
    (loadRows p s).rows = decodeRows p s.rows ∧
    (loadRows p s).revealed = s.revealed ∧
    (loadRows p s).markers = s.markers ∧
    (loadRows p s).nextMarkerId = s.nextMarkerId := by
  unfold loadRows decodeRows
  cases hj : jsField p "rows" with
  | none => exact ⟨rfl, rfl, rfl, rfl, rfl, rfl⟩
  | some v => cases v <;> exact ⟨rfl, rfl, rfl, rfl, rfl, rfl⟩

theorem loadRevealed_fields (p : JVal) (s : AppState) :
    (loadRevealed p s).imageDataUrl = s.imageDataUrl ∧
    (loadRevealed p s).cols = s.cols ∧
    (loadRevealed p s).rows = s.rows ∧
    (loadRevealed p s).revealed = decodeRevealed p s.revealed ∧
    (loadRevealed p s).markers = s.markers ∧
    (loadRevealed p s).nextMarkerId = s.nextMarkerId := by
  unfold loadRevealed decodeRevealed
  cases hj : jsField p "revealed" with
  | none => exact ⟨rfl, rfl, rfl, rfl, rfl, rfl⟩
  | some v =>
      by_cases ht : (truthy v && isObjTypeof v) = true
      · simp [ht]
      · simp [ht]

theorem loadMarkers_fields (p : JVal) (s : AppState) :
    (loadMarkers p s).imageDataUrl = s.imageDataUrl ∧
    (loadMarkers p s).cols = s.cols ∧
    (loadMarkers p s).rows = s.rows ∧
    (loadMarkers p s).revealed = s.revealed ∧
    (loadMarkers p s).markers = decodeMarkers p s.markers ∧
    (loadMarkers p s).nextMarkerId = s.nextMarkerId := by
  unfold loadMarkers decodeMarkers
  cases hj : jsField p "markers" with
  | none => exact ⟨rfl, rfl, rfl, rfl, rfl, rfl⟩
  | some v => cases v <;> exact ⟨rfl, rfl, rfl, rfl, rfl, rfl⟩

theorem loadNextId_fields (p : JVal) (s : AppState) :
    (loadNextId p s).imageDataUrl = s.imageDataUrl ∧
    (loadNextId p s).cols = s.cols ∧
    (loadNextId p s).rows = s.rows ∧
    (loadNextId p s).revealed = s.revealed ∧
    (loadNextId p s).markers = s.markers ∧
    (loadNextId p s).nextMarkerId = decodeNextId p s.nextMarkerId := by
  unfold loadNextId decodeNextId
  cases hj : jsField p "nextMarkerId" with
  | none => exact ⟨rfl, rfl, rfl, rfl, rfl, rfl⟩
  | some v => cases v <;> exact ⟨rfl, rfl, rfl, rfl, rfl, rfl⟩

/-- C3: deserialization validates each field by type independently and
never throws (`loadState` is a total function): for every persisted
record and every prior (default) state, each persisted field of the
result equals the independent accept-or-default decode of that single
record field — accepted exactly when its own type guard passes, with
the default retained otherwise — so a field failing its type check is
silently ignored and a malformed field never corrupts any other valid
field; in particular the record with `cols` the string "nine" yields
the default `cols = 8` while all its other valid fields are still
applied. -/
theorem loadState_field_defensive :
    (∀ (p : JVal) (s : AppState),
      (loadState p s).imageDataUrl = decodeImage p s.imageDataUrl ∧
      (loadState p s).cols = decodeCols p s.cols ∧
      (loadState p s).rows = decodeRows p s.rows ∧
      (loadState p s).revealed = decodeRevealed p s.revealed ∧
      (loadState p s).markers = decodeMarkers p s.markers ∧
      (loadState p s).nextMarkerId = decodeNextId p s.nextMarkerId) ∧
    (loadState (.obj [("imageDataUrl", .str "data:,x"),
        ("cols", .str "nine"), ("rows", .num 12),
        ("revealed", .obj [("1,1", .bool true)]),
        ("markers", .arr [mkMarker 1 10 10 "A" ""]),
        ("nextMarkerId", .num 5)]) defaultState
      = { defaultState with imageDataUrl := .str "data:,x", rows := 12,
                            revealed := [("1,1", .bool true)],
                            markers := [mkMarker 1 10 10 "A" ""],
                            nextMarkerId := 5 } ∧
     (loadState (.obj [("imageDataUrl", .str "data:,x"),
        ("cols", .str "nine"), ("rows", .num 12),
        ("revealed", .obj [("1,1", .bool true)]),
        ("markers", .arr [mkMarker 1 10 10 "A" ""]),
        ("nextMarkerId", .num 5)]) defaultState).cols = 8) := by
  constructor
  · intro p s
    have h1 := loadImage_fields p s
    have h2 := loadCols_fields p (loadImage p s)
    have h3 := loadRows_fields p (loadCols p (loadImage p s))
    have h4 := loadRevealed_fields p
      (loadRows p (loadCols p (loadImage p s)))
    have h5 := loadMarkers_fields p
      (loadRevealed p (loadRows p (loadCols p (loadImage p s))))
    have h6 := loadNextId_fields p
      (loadMarkers p (loadRevealed p (loadRows p (loadCols p
        (loadImage p s)))))
    unfold loadState
    refine ⟨?_, ?_, ?_, ?_, ?_, ?_⟩
    · rw [h6.1, h5.1, h4.1, h3.1, h2.1, h1.1]
    · rw [h6.2.1, h5.2.1, h4.2.1, h3.2.1, h2.2.1, h1.2.1]
    · rw [h6.2.2.1, h5.2.2.1, h4.2.2.1, h3.2.2.1, h2.2.2.1, h1.2.2.1]
    · rw [h6.2.2.2.1, h5.2.2.2.1, h4.2.2.2.1, h3.2.2.2.1, h2.2.2.2.1,
          h1.2.2.2.1]
    · rw [h6.2.2.2.2.1, h5.2.2.2.2.1, h4.2.2.2.2.1, h3.2.2.2.2.1,
          h2.2.2.2.2.1, h1.2.2.2.2.1]
    · rw [h6.2.2.2.2.2, h5.2.2.2.2.2, h4.2.2.2.2.2, h3.2.2.2.2.2,
          h2.2.2.2.2.2, h1.2.2.2.2.2]
  · exact ⟨rfl, rfl⟩

/-- A record in which every field except `cols` is malformed for its
guard (wrong type or falsy). -/
def malformedRecord : JVal :=
  .obj [("imageDataUrl", .bool false), ("cols", .num 10),
        ("rows", .str "six"), ("revealed", .str "no"),
        ("markers", .bool true), ("nextMarkerId", .str "x")]

theorem loadState_field_defensive_witness :
    (loadState malformedRecord defaultState).imageDataUrl = JVal.null ∧
    (loadState malformedRecord defaultState).cols = 10 ∧
    (loadState malformedRecord defaultState).rows = 6 ∧
    (loadState malformedRecord defaultState).revealed = [] ∧
    (loadState malformedRecord defaultState).markers = [] ∧
    (loadState malformedRecord defaultState).nextMarkerId = 1 := by
  have h := loadState_field_defensive.1 malformedRecord defaultState
  exact ⟨h.1.trans rfl, h.2.1.trans rfl, h.2.2.1.trans rfl,
    h.2.2.2.1.trans rfl, h.2.2.2.2.1.trans rfl, h.2.2.2.2.2.trans rfl⟩

/-- Grid dimensions are integral and within `[4, 24]`. -/
def gridOk (s : AppState) : Prop :=
  (∃ a : ℤ, s.cols = (a : ℚ) ∧ 4 ≤ a ∧ a ≤ 24) ∧
  (∃ b : ℤ, s.rows = (b : ℚ) ∧ 4 ≤ b ∧ b ≤ 24)

/-- C4: after `applyGridInputs` (grid-input change) and after the startup
load sequence (`loadState` then `applyGridInputs`, for every possible
payload and re-parse outcome), `cols` and `rows` are integers in
`[4, 24]`; the bound is preserved by every session event; and an
unparseable input (`parseInt` giving `NaN`) defaults to `cols = 8`,
`rows = 6`. -/
theorem grid_dims_clamped :
    (∀ (colsIn rowsIn : Option ℤ) (s : AppState),
      gridOk (applyGridInputs colsIn rowsIn s)) ∧
    (∀ (payload : Option JVal) (colsIn rowsIn : Option ℤ),
      gridOk (initLoad payload colsIn rowsIn)) ∧
    (∀ (op : Op) (s : AppState), gridOk s → gridOk (step op s)) ∧
    (∀ s : AppState, (applyGridInputs none none s).cols = 8 ∧
      (applyGridInputs none none s).rows = 6) := by
  have h1 : ∀ (colsIn rowsIn : Option ℤ) (s : AppState),
      gridOk (applyGridInputs colsIn rowsIn s) := by
    intro cIn rIn s
    exact ⟨⟨max 4 (min 24 (jsOrInt cIn 8)), rfl, by omega, by omega⟩,
           ⟨max 4 (min 24 (jsOrInt rIn 6)), rfl, by omega, by omega⟩⟩
  refine ⟨h1, ?_, ?_, ?_⟩
  · intro payload cIn rIn
    exact h1 cIn rIn _
  · intro op s hs
    cases op with
    | gridChange cIn rIn => exact h1 cIn rIn s
    | imageSelect ty url =>
        show gridOk (onImageSelect ty url s)
        unfold onImageSelect
        split <;> exact hs
    | mapClick i j rIn x y =>
        show gridOk (onMapClick i j rIn x y s)
        unfold onMapClick
        split <;> exact hs
    | markerSave nIn cIn =>
        show gridOk (onMarkerSave nIn cIn s)
        unfold onMarkerSave
        split <;> exact hs
    | modeToggle => exact hs
    | masterShowAll => exact hs
    | masterHide => exact hs
    | resetConfirm => exact hs
    | modalClose => exact hs
    | markerDelete id => exact hs
    | diceRoll => exact hs
  · intro s
    constructor <;> simp [applyGridInputs, jsOrInt]

theorem grid_dims_clamped_witness :
    gridOk (initLoad (some (.obj [("cols", .num 100), ("rows", .num (5/2))]))
      (some 100) (some 2)) ∧
    gridOk (step .modeToggle defaultState) := by
  have h := grid_dims_clamped
  exact ⟨h.2.1 _ _ _, h.2.2.1 .modeToggle defaultState
    ⟨⟨8, by norm_num [defaultState], by norm_num, by norm_num⟩,
     ⟨6, by norm_num [defaultState], by norm_num, by norm_num⟩⟩⟩

/-! ## Marker id freshness (C5) -/

theorem step_nextId_mono (op : Op) (s : AppState) (h : notReset op) :
    s.nextMarkerId ≤ (step op s).nextMarkerId := by
  cases op with
  | resetConfirm => exact False.elim h
  | markerSave nIn cIn =>
      show s.nextMarkerId ≤ (onMarkerSave nIn cIn s).nextMarkerId
      unfold onMarkerSave
      split
      · exact le_refl _
      · show s.nextMarkerId ≤ s.nextMarkerId + 1
        linarith
  | imageSelect ty url =>
      show s.nextMarkerId ≤ (onImageSelect ty url s).nextMarkerId
      unfold onImageSelect
      split <;> exact le_refl _
  | mapClick i j rIn x y =>
      show s.nextMarkerId ≤ (onMapClick i j rIn x y s).nextMarkerId
      unfold onMapClick
      split <;> exact le_refl _
  | gridChange cIn rIn => exact le_refl _
  | modeToggle => exact le_refl _
  | masterShowAll => exact le_refl _
  | masterHide => exact le_refl _
  | modalClose => exact le_refl _
  | markerDelete id => exact le_refl _
  | diceRoll => exact le_refl _

theorem runOps_nextId_mono (ops : List Op) (s : AppState)
    (h : ∀ op ∈ ops, notReset op) :
    s.nextMarkerId ≤ (runOps ops s).nextMarkerId := by
  induction ops generalizing s with
  | nil => exact le_refl _
  | cons op rest ih =>
      exact le_trans (step_nextId_mono op s (h op (by simp)))
        (ih (step op s) (fun o ho => h o (by simp [ho])))

theorem issuedNow_eq (op : Op) (s : AppState) :
    ∀ a ∈ issuedNow op s, a = s.nextMarkerId := by
  unfold issuedNow
  split
  · intro a ha
    simpa using ha
  · intro a ha
    simp at ha

theorem issuedNow_lt_step (op : Op) (s : AppState) :
    ∀ a ∈ issuedNow op s, a < (step op s).nextMarkerId := by
  unfold issuedNow
  split
  · intro a ha
    simp at ha
    subst ha
    rename_i nIn cIn p hp
    show s.nextMarkerId < (onMarkerSave nIn cIn s).nextMarkerId
    unfold onMarkerSave
    rw [hp]
    show s.nextMarkerId < s.nextMarkerId + 1
    linarith
  · intro a ha
    simp at ha

theorem issuedIds_lt (ops : List Op) (s : AppState)
    (h : ∀ op ∈ ops, notReset op) :
    ∀ a ∈ issuedIds ops s, a < (runOps ops s).nextMarkerId := by
  induction ops generalizing s with
  | nil =>
      intro a ha
      simp [issuedIds] at ha
  | cons op rest ih =>
      intro a ha
      rcases List.mem_append.mp ha with ha | ha
      · exact lt_of_lt_of_le (issuedNow_lt_step op s a ha)
          (runOps_nextId_mono rest (step op s) (fun o ho => h o (by simp [ho])))
      · exact ih (step op s) (fun o ho => h o (by simp [ho])) a ha

theorem issuedIds_ge (ops : List Op) (s : AppState)
    (h : ∀ op ∈ ops, notReset op) :
    ∀ b ∈ issuedIds ops s, s.nextMarkerId ≤ b := by
  induction ops generalizing s with
  | nil =>
      intro b hb
      simp [issuedIds] at hb
  | cons op rest ih =>
      intro b hb
      rcases List.mem_append.mp hb with hb | hb
      · exact le_of_eq (issuedNow_eq op s b hb).symm
      · exact le_trans (step_nextId_mono op s (h op (by simp)))
          (ih (step op s) (fun o ho => h o (by simp [ho])) b hb)

/-- C5: within a session (no full reset), every effective marker save is
assigned the current `nextMarkerId` which is then incremented; the
counter never decreases across session events; and every id issued after
a sequence of events (which may delete arbitrary markers) is strictly
greater than every id issued before, so ids are strictly increasing and
never reused — even the id of a deleted marker. -/
theorem markerIds_monotone_fresh :
    (∀ (s : AppState) (nameIn checkIn : String) (x y : ℚ),
      s.pendingMarker = some (x, y) →
        (step (.markerSave nameIn checkIn) s).markers
          = s.markers ++ [mkMarker s.nextMarkerId x y
              (jsOrStr (jsTrim nameIn) "Проверка")
              (jsOrStr (jsTrim checkIn) "")] ∧
        (step (.markerSave nameIn checkIn) s).nextMarkerId
          = s.nextMarkerId + 1) ∧
    (∀ (ops : List Op) (s : AppState), (∀ op ∈ ops, notReset op) →
      s.nextMarkerId ≤ (runOps ops s).nextMarkerId) ∧
    (∀ (ops1 ops2 : List Op) (s : AppState),
      (∀ op ∈ ops1, notReset op) → (∀ op ∈ ops2, notReset op) →
      ∀ a ∈ issuedIds ops1 s, ∀ b ∈ issuedIds ops2 (runOps ops1 s),
        a < b) := by
  refine ⟨?_, ?_, ?_⟩
  · intro s nIn cIn x y hp
    constructor
    · simp [step, onMarkerSave, hp]
    · simp [step, onMarkerSave, hp]
  · intro ops s h
    exact runOps_nextId_mono ops s h
  · intro ops1 ops2 s h1 h2 a ha b hb
    exact lt_of_lt_of_le (issuedIds_lt ops1 s h1 a ha)
      (issuedIds_ge ops2 (runOps ops1 s) h2 b hb)

/-- A run that issues id 1 and then, after deleting marker 1, issues a
fresh id. -/
def opsIssueA : List Op := [.mapClick 0 0 none 10 20, .markerSave "A" ""]

/-- Continuation run: delete marker 1, then add another marker. -/
def opsIssueB : List Op :=
  [.markerDelete 1, .mapClick 0 0 none 30 40, .markerSave "B" ""]

theorem markerIds_monotone_fresh_witness :
    issuedIds opsIssueA defaultState = [1] ∧
    issuedIds opsIssueB (runOps opsIssueA defaultState) = [2] ∧
    (1 : ℚ) < 2 := by
  have e1 : issuedIds opsIssueA defaultState = [1] := by
    norm_num [opsIssueA, issuedIds, issuedNow, runOps, step, onMapClick,
      onMarkerSave, defaultState]
  have e2 : issuedIds opsIssueB (runOps opsIssueA defaultState) = [2] := by
    norm_num [opsIssueA, opsIssueB, issuedIds, issuedNow, runOps, step,
      onMapClick, onMarkerSave, deleteMarker, defaultState, mkMarker,
      jsField, jsGet]
  refine ⟨e1, e2, ?_⟩
  exact markerIds_monotone_fresh.2.2 opsIssueA opsIssueB defaultState
    (by decide) (by decide) 1 (e1 ▸ List.mem_singleton.mpr rfl) 2
    (e2 ▸ List.mem_singleton.mpr rfl)

/-! ## Visibility monotonicity (C6) -/

theorem step_preserves_revealed (op : Op) (s : AppState) (key : String)
    (hop : notResetNotImage op) (h : memRevealed s.revealed key = true) :
    memRevealed (step op s).revealed key = true := by
  cases op with
  | imageSelect ty url => exact False.elim hop
  | resetConfirm => exact False.elim hop
  | mapClick i j rIn x y =>
      show memRevealed (onMapClick i j rIn x y s).revealed key = true
      unfold onMapClick
      split
      · cases rIn with
        | none => exact h
        | some r =>
            simp only [memRevealed, jsGet_foldl_setTrue]
            by_cases hk : key ∈ revealList i j r s.cols s.rows
            · simp [hk, truthyOpt, truthy]
            · simp only [hk, if_neg, ite_false]
              exact h
      · exact h
  | markerSave nIn cIn =>
      show memRevealed (onMarkerSave nIn cIn s).revealed key = true
      unfold onMarkerSave
      split
      · exact h
      · exact h
  | gridChange cIn rIn => exact h
  | modeToggle => exact h
  | masterShowAll => exact h
  | masterHide => exact h
  | modalClose => exact h
  | markerDelete id => exact h
  | diceRoll => exact h

theorem runOps_preserves_revealed (ops : List Op) (s : AppState)
    (key : String) (hops : ∀ op ∈ ops, notResetNotImage op)
    (h : memRevealed s.revealed key = true) :
    memRevealed (runOps ops s).revealed key = true := by
  induction ops generalizing s with
  | nil => exact h
  | cons op rest ih =>
      exact ih (step op s) (fun o ho => hops o (by simp [ho]))
        (step_preserves_revealed op s key (hops op (by simp)) h)

/-- A state with one revealed cell, used to exhibit that an image load
(which the spec itself treats as a clearing step, §4.4) wipes the
revealed set. -/
def revealedOneState : AppState :=
  { defaultState with revealed := [("3,2", JVal.bool true)] }

/-- C6 counterexample: loading a new image is an operation other than a
full reset, yet after it `isCellVisible` for the previously revealed key
`"3,2"` is `false` — the key was removed from the revealed set. -/
theorem imageSelect_clears_revealed_cex :
    isCellVisible revealedOneState "3,2" = true ∧
    Op.imageSelect "image/png" "data:image/png;base64,AA==" ≠
      Op.resetConfirm ∧
    isCellVisible
      (step (.imageSelect "image/png" "data:image/png;base64,AA==")
        revealedOneState) "3,2" = false := by
  refine ⟨rfl, ?_, rfl⟩
  intro hcontra
  exact Op.noConfusion hcontra

/-- C6 (amended: monotonic absent a full reset *or a new image load*):
once a key is in the revealed set, it stays in the revealed set across
every sequence of session events that contains neither the full reset
nor an image load, and `isCellVisible` for it stays `true` regardless of
how `masterViewAll` is toggled along the way; no such operation removes
an individual key. -/
theorem isVisible_monotone_amended (ops : List Op) (s : AppState)
    (key : String) (hops : ∀ op ∈ ops, notResetNotImage op)
    (h : memRevealed s.revealed key = true) :
    memRevealed (runOps ops s).revealed key = true ∧
    isCellVisible (runOps ops s) key = true := by
  have hm := runOps_preserves_revealed ops s key hops h
  refine ⟨hm, ?_⟩
  have hv : isCellVisible (runOps ops s) key
      = (memRevealed (runOps ops s).revealed key
          || (runOps ops s).masterViewAll) := rfl
  rw [hv, hm]
  rfl

theorem isVisible_monotone_amended_witness :
    memRevealed (runOps [.masterShowAll, .masterHide,
        .gridChange (some 10) (some 10), .mapClick 0 0 (some 0) 0 0]
      revealedOneState).revealed "3,2" = true ∧
    isCellVisible (runOps [.masterShowAll, .masterHide,
        .gridChange (some 10) (some 10), .mapClick 0 0 (some 0) 0 0]
      revealedOneState) "3,2" = true :=
  isVisible_monotone_amended
    [.masterShowAll, .masterHide, .gridChange (some 10) (some 10),
     .mapClick 0 0 (some 0) 0 0]
    revealedOneState "3,2" (by decide) rfl

/-! ## Marker defaults (C9) -/

/-- A state with a pending marker position at (50, 50), as captured by a
map click in marker mode. -/
def pendingAt : AppState :=
  { defaultState with pendingMarker := some (50, 50) }

/-- C9 counterexample: saving a marker with a whitespace-only name yields
the placeholder name `"Проверка"` (the app's label, Russian for
"Check"), which is not the literal string `"Check"` the claim states. -/
theorem markerName_placeholder_cex :
    (step (.markerSave " " "") pendingAt).markers
      = [mkMarker 1 50 50 "Проверка" ""] ∧
    "Проверка" ≠ "Check" := by
  refine ⟨rfl, ?_⟩
  decide

/-- C9 (amended: the placeholder label is the string `"Проверка"` — the
application's placeholder, Russian for "Check" — not the literal string
`"Check"`): with a pending position, an empty or whitespace-only name
input yields the placeholder name, a non-empty name is stored trimmed as
supplied, and the check field is the trimmed check input, so an empty
check input yields the empty string. -/
theorem markerSave_defaults (s : AppState) (nameIn checkIn : String)
    (x y : ℚ) (hp : s.pendingMarker = some (x, y)) :
    (step (.markerSave nameIn checkIn) s).markers
      = s.markers ++ [mkMarker s.nextMarkerId x y
          (if jsTrim nameIn = "" then "Проверка" else jsTrim nameIn)
          (jsTrim checkIn)] := by
  by_cases h : jsTrim checkIn = "" <;>
    simp [step, onMarkerSave, hp, jsOrStr, h]

theorem markerSave_defaults_witness :
    (step (.markerSave " Trap " "  ") pendingAt).markers
      = [mkMarker 1 50 50 "Trap" ""] := by
  have h := markerSave_defaults pendingAt " Trap " "  " 50 50 rfl
  rw [h]
  rfl

end RpgMap
